import Mathlib

/-!
Verification of the OpenAPI document assembly engine (yelix-cloud/OpenAPI).

The TypeScript source is shallowly embedded: JavaScript objects become
insertion-ordered association lists over a JSON value type, class methods
become pure functions from document state to document state, and methods
that may throw return the unchanged state together with the thrown message.
-/

/-- JSON values, as manipulated by the assembly engine.  Numbers are modelled
as integers; the engine never computes on numeric values. -/
inductive Json where
  | null : Json
  | bool (b : Bool) : Json
  | num (n : Int) : Json
  | str (s : String) : Json
  | arr (items : List Json) : Json
  | obj (fields : List (String × Json)) : Json

/-- A JavaScript object: string keys with values, in insertion order. -/
abbrev Obj := List (String × Json)

/-- Property read on a JavaScript object: first (unique) matching key. -/
def objGet {α : Type} (l : List (String × α)) (k : String) : Option α :=
  match l with
  | [] => none
  | (k', v) :: rest => if k' = k then some v else objGet rest k

/-- Property write on a JavaScript object: an existing key keeps its
position and gets the new value, a fresh key is appended at the end. -/
def objSet {α : Type} (l : List (String × α)) (k : String) (v : α) :
    List (String × α) :=
  match l with
  | [] => [(k, v)]
  | (k', v') :: rest =>
      if k' = k then (k, v) :: rest else (k', v') :: objSet rest k v

@[simp]
theorem objGet_objSet_self {α : Type} (l : List (String × α)) (k : String) (v : α) :
    objGet (objSet l k v) k = some v := by
  induction l with
  | nil => simp [objGet, objSet]
  | cons hd tl ih =>
      obtain ⟨k', v'⟩ := hd
      by_cases h : k' = k
      · simp [objGet, objSet, h]
      · simp [objGet, objSet, h, ih]

theorem mem_objSet_self {α : Type} (l : List (String × α)) (k : String) (v : α) :
    (k, v) ∈ objSet l k v := by
  induction l with
  | nil => simp [objSet]
  | cons hd tl ih =>
      obtain ⟨k', v'⟩ := hd
      by_cases h : k' = k
      · simp [objSet, h]
      · simp only [objSet, if_neg h]
        exact List.mem_cons_of_mem _ ih

theorem objGet_eq_none_iff {α : Type} (l : List (String × α)) (k : String) :
    objGet l k = none ↔ k ∉ l.map Prod.fst := by
  induction l with
  | nil => simp [objGet]
  | cons hd tl ih =>
      obtain ⟨k', v'⟩ := hd
      by_cases h : k' = k
      · simp [objGet, h]
      · simp [objGet, h, ih, Ne.symm h]

/-- Splitting a character list at every occurrence of a separator, with the
semantics of JavaScript's String.prototype.split with a one-character
separator: empty pieces are kept, and the result is never empty. -/
def splitOnChar (c : Char) : List Char → List (List Char)
  | [] => [[]]
  | x :: xs =>
      if x = c then [] :: splitOnChar c xs
      else
        match splitOnChar c xs with
        | [] => [[x]]
        | h :: t => (x :: h) :: t

theorem splitOnChar_ne_nil (c : Char) (l : List Char) : splitOnChar c l ≠ [] := by
  induction l with
  | nil => simp [splitOnChar]
  | cons x xs ih =>
      by_cases h : x = c
      · simp [splitOnChar, h]
      · simp only [splitOnChar, if_neg h]
        cases hs : splitOnChar c xs with
        | nil => simp
        | cons a b => simp

theorem splitOnChar_of_not_mem {c : Char} {l : List Char} (h : c ∉ l) :
    splitOnChar c l = [l] := by
  induction l with
  | nil => rfl
  | cons x xs ih =>
      have hx : x ≠ c := fun hc => h (hc ▸ List.mem_cons_self x xs)
      have hxs : c ∉ xs := fun hc => h (List.mem_cons_of_mem _ hc)
      simp [splitOnChar, hx, ih hxs]

theorem splitOnChar_append_sep {c : Char} {xs : List Char} (h : c ∉ xs)
    (ys : List Char) :
    splitOnChar c (xs ++ c :: ys) = xs :: splitOnChar c ys := by
  induction xs with
  | nil => simp [splitOnChar]
  | cons x tl ih =>
      have hx : x ≠ c := fun hc => h (hc ▸ List.mem_cons_self x tl)
      have htl : c ∉ tl := fun hc => h (List.mem_cons_of_mem _ hc)
      simp only [List.cons_append, splitOnChar, List.append_eq, if_neg hx, ih htl]

/-- Truthiness of an optional JavaScript string: undefined and the empty
string are falsy. -/
def truthyS : Option String → Bool
  | none => false
  | some s => !(s == "")

/-- The JavaScript expression o || dflt on an optional string. -/
def jsOrStr (o : Option String) (dflt : String) : String :=
  match o with
  | none => dflt
  | some s => if s = "" then dflt else s

/-- External documentation object (OpenAPIExternalDocs). -/
structure OpenAPIExternalDocs where
  url : String
  description : Option String := none
deriving Repr, DecidableEq

/-- Tag object (OpenAPITag). -/
structure OpenAPITag where
  name : String
  description : Option String := none
  externalDocs : Option OpenAPIExternalDocs := none
deriving Repr, DecidableEq

/-- Info object of the document. -/
structure OpenAPIInfo where
  title : String
  version : String
  description : String
deriving Repr, DecidableEq

/-- A security requirement: scheme name to list of scopes
(type SecurityRequirement = Record of string to string array). -/
abbrev SecurityRequirement := List (String × List String)

/-- The components section (OpenAPIComponents): eleven independently keyed
collections, each lazily created.  Fragment payloads are opaque JSON. -/
structure OpenAPIComponents where
  schemas : Option Obj := none
  responses : Option Obj := none
  parameters : Option Obj := none
  examples : Option Obj := none
  requestBodies : Option Obj := none
  headers : Option Obj := none
  securitySchemes : Option Obj := none
  links : Option Obj := none
  callbacks : Option Obj := none
  pathItems : Option Obj := none
  webhooks : Option Obj := none

/-- Dynamic property read components[name] on the components section. -/
def OpenAPIComponents.lookup (c : OpenAPIComponents) : String → Option Obj
  | "schemas" => c.schemas
  | "responses" => c.responses
  | "parameters" => c.parameters
  | "examples" => c.examples
  | "requestBodies" => c.requestBodies
  | "headers" => c.headers
  | "securitySchemes" => c.securitySchemes
  | "links" => c.links
  | "callbacks" => c.callbacks
  | "pathItems" => c.pathItems
  | "webhooks" => c.webhooks
  | _ => none

/-- The names of the component collections, used to index the add*
convenience operations. -/
inductive CollectionKind where
  | schemas | responses | parameters | examples | requestBodies
  | headers | securitySchemes | links | callbacks | pathItems | webhooks
deriving Repr, DecidableEq

/-- The key under which each collection is stored in components. -/
def CollectionKind.name : CollectionKind → String
  | .schemas => "schemas"
  | .responses => "responses"
  | .parameters => "parameters"
  | .examples => "examples"
  | .requestBodies => "requestBodies"
  | .headers => "headers"
  | .securitySchemes => "securitySchemes"
  | .links => "links"
  | .callbacks => "callbacks"
  | .pathItems => "pathItems"
  | .webhooks => "webhooks"

/-- Typed read of one collection of the components section. -/
def OpenAPIComponents.getColl (c : OpenAPIComponents) : CollectionKind → Option Obj
  | .schemas => c.schemas
  | .responses => c.responses
  | .parameters => c.parameters
  | .examples => c.examples
  | .requestBodies => c.requestBodies
  | .headers => c.headers
  | .securitySchemes => c.securitySchemes
  | .links => c.links
  | .callbacks => c.callbacks
  | .pathItems => c.pathItems
  | .webhooks => c.webhooks

/-- Typed write of one collection of the components section. -/
def OpenAPIComponents.setColl (c : OpenAPIComponents) :
    CollectionKind → Option Obj → OpenAPIComponents
  | .schemas, v => { c with schemas := v }
  | .responses, v => { c with responses := v }
  | .parameters, v => { c with parameters := v }
  | .examples, v => { c with examples := v }
  | .requestBodies, v => { c with requestBodies := v }
  | .headers, v => { c with headers := v }
  | .securitySchemes, v => { c with securitySchemes := v }
  | .links, v => { c with links := v }
  | .callbacks, v => { c with callbacks := v }
  | .pathItems, v => { c with pathItems := v }
  | .webhooks, v => { c with webhooks := v }

theorem lookup_name_eq_getColl (c : OpenAPIComponents) (k : CollectionKind) :
    c.lookup k.name = c.getColl k := by
  cases k <;> rfl

theorem getColl_setColl_self (c : OpenAPIComponents) (k : CollectionKind)
    (v : Option Obj) : (c.setColl k v).getColl k = v := by
  cases k <;> rfl

/-- The root document (OpenAPIDoc).  Fields that the constructor does not
initialize (security, tags, webhooks) are optional; an absent mapping is
distinct from a present empty one. -/
structure OpenAPIDoc where
  openapi : String
  info : OpenAPIInfo
  jsonSchemaDialect : Option String
  paths : List (String × Json)
  servers : List Json
  components : Option OpenAPIComponents
  security : Option (List SecurityRequirement) := none
  tags : Option (List OpenAPITag) := none
  webhooks : Option (List (String × Obj)) := none

/-- Constructor parameters (OpenAPIParams). -/
structure OpenAPIParams where
  title : String
  version : String
  description : Option String := none
  servers : Option (List Json) := none

/-- A Reference object: the ref field holds the canonical reference string
stored under the JSON key named dollar-ref. -/
structure OpenAPIReference where
  ref : String
deriving Repr, DecidableEq

namespace OpenAPI

/-- Default JSON Schema dialect for OpenAPI 3.1
(SCHEMA_DIALECTS.DRAFT_2020_12). -/
def DRAFT_2020_12 : String := "https://json-schema.org/draft/2020-12/schema"

/-- The class constructor: builds the initial document tree. -/
def init (config : OpenAPIParams) : OpenAPIDoc :=
  { openapi := "3.1.0"
    info :=
      { title := config.title
        version := config.version
        description := jsOrStr config.description "OpenAPI API Documentation" }
    jsonSchemaDialect := some DRAFT_2020_12
    paths := []
    servers := config.servers.getD []
    components := some {} }

/-- Method addNewEndpoint_: stores the built endpoint wholesale under the
path key, silently overwriting any previous path item. -/
def addNewEndpoint_ (doc : OpenAPIDoc) (path : String) (endpoint : Json) :
    OpenAPIDoc :=
  { doc with paths := objSet doc.paths path endpoint }

/-- Method ensureComponents composed with a typed collection update: the
common body of the add* registration operations.  Each add* lazily creates
the components section and the named sub-collection, stores the fragment
under the entry name (overwriting silently), and returns a Reference whose
string has the canonical three-segment shape. -/
def addComponent (doc : OpenAPIDoc) (k : CollectionKind) (name : String)
    (fragment : Json) : OpenAPIDoc × OpenAPIReference :=
  let comps := doc.components.getD {}
  let coll := (comps.getColl k).getD []
  ( { doc with components := some (comps.setColl k (some (objSet coll name fragment))) },
    ⟨"#/components/" ++ k.name ++ "/" ++ name⟩ )

/-- Method addSchema: like the other add* operations but with an optional
dialect; a truthy dialect is written into the stored fragment as the
dollar-schema key, and no key is written otherwise. -/
def addSchema (doc : OpenAPIDoc) (name : String) (schema : Obj)
    (dialect : Option String) : OpenAPIDoc × OpenAPIReference :=
  let finalSchema :=
    match dialect with
    | some d => if d = "" then schema else objSet schema "$schema" (Json.str d)
    | none => schema
  addComponent doc .schemas name (Json.obj finalSchema)

/-- Method addResponse. -/
def addResponse (doc : OpenAPIDoc) (name : String) (response : Json) :
    OpenAPIDoc × OpenAPIReference :=
  addComponent doc .responses name response

/-- Method addParameter. -/
def addParameter (doc : OpenAPIDoc) (name : String) (parameter : Json) :
    OpenAPIDoc × OpenAPIReference :=
  addComponent doc .parameters name parameter

/-- Method addExample. -/
def addExample (doc : OpenAPIDoc) (name : String) (exampleValue : Json) :
    OpenAPIDoc × OpenAPIReference :=
  addComponent doc .examples name exampleValue

/-- Method addRequestBody. -/
def addRequestBody (doc : OpenAPIDoc) (name : String) (requestBody : Json) :
    OpenAPIDoc × OpenAPIReference :=
  addComponent doc .requestBodies name requestBody

/-- Method addHeader. -/
def addHeader (doc : OpenAPIDoc) (name : String) (header : Json) :
    OpenAPIDoc × OpenAPIReference :=
  addComponent doc .headers name header

/-- Method addSecurityScheme. -/
def addSecurityScheme (doc : OpenAPIDoc) (name : String) (scheme : Json) :
    OpenAPIDoc × OpenAPIReference :=
  addComponent doc .securitySchemes name scheme

/-- Method addLink. -/
def addLink (doc : OpenAPIDoc) (name : String) (link : Json) :
    OpenAPIDoc × OpenAPIReference :=
  addComponent doc .links name link

/-- Method addCallback. -/
def addCallback (doc : OpenAPIDoc) (name : String) (callback : Json) :
    OpenAPIDoc × OpenAPIReference :=
  addComponent doc .callbacks name callback

/-- Method addPathItem. -/
def addPathItem (doc : OpenAPIDoc) (name : String) (pathItem : Json) :
    OpenAPIDoc × OpenAPIReference :=
  addComponent doc .pathItems name pathItem

/-- Method addComponentWebhook: registers a reusable webhook in the
components section; the returned reference is minted by
createWebhookReference and has the same canonical shape. -/
def addComponentWebhook (doc : OpenAPIDoc) (name : String) (pathItem : Json) :
    OpenAPIDoc × OpenAPIReference :=
  addComponent doc .webhooks name pathItem

/-- Method addGlobalSecurity: lazily creates the security sequence and
appends one requirement (Array.prototype.push). -/
def addGlobalSecurity (doc : OpenAPIDoc) (r : SecurityRequirement) : OpenAPIDoc :=
  { doc with security := some (doc.security.getD [] ++ [r]) }

/-- Method setGlobalSecurity: wholesale replacement of the security
sequence. -/
def setGlobalSecurity (doc : OpenAPIDoc) (rs : List SecurityRequirement) :
    OpenAPIDoc :=
  { doc with security := some rs }

/-- Method createSecurityRequirement: a single-key requirement mapping. -/
def createSecurityRequirement (schemeName : String) (scopes : List String) :
    SecurityRequirement :=
  [(schemeName, scopes)]

/-- Two-step read of components followed by the named collection, as
performed by the resolver. -/
def componentsLookup (doc : OpenAPIDoc) (ty : String) : Option Obj :=
  match doc.components with
  | none => none
  | some comps => comps.lookup ty

/-- Method getComponentByRef (the resolver): checks the reference prefix,
drops the two leading characters, splits on the slash character, requires
exactly three segments, then walks components and the named collection.
Every failure returns none; the document is never modified. -/
def getComponentByRef (doc : OpenAPIDoc) (ref : String) : Option Json :=
  if "#/components/".data <+: ref.data then
    match splitOnChar '/' (ref.data.drop 2) with
    | [_, p₁, p₂] =>
        match componentsLookup doc (String.mk p₁) with
        | none => none
        | some coll => objGet coll (String.mk p₂)
    | _ => none
  else none

/-- Method addTag: appends a tag only when no tag of that name exists;
description is stored only when truthy, externalDocs only when present. -/
def addTag (doc : OpenAPIDoc) (name : String) (description : Option String)
    (externalDocs : Option OpenAPIExternalDocs) : OpenAPIDoc :=
  let tags := doc.tags.getD []
  match tags.find? (fun t => t.name == name) with
  | some _ => { doc with tags := some tags }
  | none =>
      let tag : OpenAPITag :=
        { name := name
          description := if truthyS description then description else none
          externalDocs := externalDocs }
      { doc with tags := some (tags ++ [tag]) }

/-- Method getTags. -/
def getTags (doc : OpenAPIDoc) : List OpenAPITag :=
  doc.tags.getD []

/-- Method getTagByName. -/
def getTagByName (doc : OpenAPIDoc) (name : String) : Option OpenAPITag :=
  doc.tags.bind (fun tags => tags.find? (fun t => t.name == name))

/-- Method addWebhook: lazily creates the webhooks mapping and stores the
path item (or reference) wholesale under the name. -/
def addWebhook (doc : OpenAPIDoc) (name : String) (pathItem : Obj) : OpenAPIDoc :=
  { doc with webhooks := some (objSet (doc.webhooks.getD []) name pathItem) }

/-- Method addWebhookOperation: initializes the webhooks mapping when
absent, then fails (false) when the named webhook is missing or is a
Reference (has a dollar-ref key); otherwise stores the operation under the
method key of that webhook and returns true. -/
def addWebhookOperation (doc : OpenAPIDoc) (webhookName : String)
    (method : String) (operation : Json) : OpenAPIDoc × Bool :=
  let doc :=
    match doc.webhooks with
    | none => { doc with webhooks := some [] }
    | some _ => doc
  let whs := doc.webhooks.getD []
  match objGet whs webhookName with
  | none => (doc, false)
  | some webhook =>
      if (objGet webhook "$ref").isSome then (doc, false)
      else
        (  { doc with
              webhooks := some (objSet whs webhookName (objSet webhook method operation)) },
          true )

/-- Method setJSONSchemaDialect. -/
def setJSONSchemaDialect (doc : OpenAPIDoc) (dialect : String) : OpenAPIDoc :=
  { doc with jsonSchemaDialect := some dialect }

/-- Method getJSONSchemaDialect: the stored dialect, falling back to the
2020-12 dialect when the stored value is absent or falsy. -/
def getJSONSchemaDialect (doc : OpenAPIDoc) : String :=
  jsOrStr doc.jsonSchemaDialect DRAFT_2020_12

/-- Method createSchema: shallow copy of the fragment with the
dollar-schema key set to the given dialect when truthy, and otherwise to
the document default dialect. -/
def createSchema (doc : OpenAPIDoc) (schema : Obj) (dialect : Option String) :
    Obj :=
  objSet schema "$schema" (Json.str (jsOrStr dialect (getJSONSchemaDialect doc)))

/-- Method createSchemaWithVocabularies: shallow copy with the
dollar-vocabulary key set to the supplied mapping. -/
def createSchemaWithVocabularies (doc : OpenAPIDoc) (schema : Obj)
    (vocabularies : List (String × Bool)) : Obj :=
  let _ := doc
  objSet schema "$vocabulary"
    (Json.obj (vocabularies.map (fun p => (p.1, Json.bool p.2))))

end OpenAPI

/-- Document owned by the Core revision of the assembler (OpenAPICore in
src/Core.ts).  Only the fields touched by the verified operations are
carried; the paths mapping is absent until first use. -/
structure OpenAPICore where
  openapi : String
  title : String
  version : String
  paths : Option (List (String × Obj)) := none

/-- The Core revision of the assembler class (src/Core.ts): document plus
the debug flag set at construction. -/
structure Core where
  raw : OpenAPICore
  debug : Bool

namespace Core

/-- The class constructor with its debug option. -/
def init (debug : Bool) : Core :=
  { raw := { openapi := "3.1.0", title := "OpenAPI 3.1.0", version := "1.0.0" }
    debug := debug }

/-- Private method log: a console line (level and message) is produced only
when the instance is in debug mode.  The real-time timestamp prefix is
abstracted away. -/
def logOut (c : Core) (level msg : String) : List (String × String) :=
  if c.debug then [(level, msg)] else []

/-- A finished endpoint path fragment handed over by the external
EndpointPath builder collaborator. -/
structure EndpointPath where
  path : String
  pathItem : Obj

/-- Method addEndpointPath: logs the merge, warns (still through the
debug-gated logger) when the path already exists, then replaces the stored
path item wholesale.  Returns the new state and the console output. -/
def addEndpointPath (c : Core) (ep : EndpointPath) : Core × List (String × String) :=
  let infoLog := c.logOut "info" ("Adding endpoint path: " ++ ep.path)
  let paths := c.raw.paths.getD []
  let warnLog :=
    match objGet paths ep.path with
    | some _ => c.logOut "warn" ("Path " ++ ep.path ++ " already exists, overwriting it")
    | none => []
  ( { c with raw := { c.raw with paths := some (objSet paths ep.path ep.pathItem) } },
    infoLog ++ warnLog )

end Core

/-- The EndpointBuilder class (src/EndpointBuilder.ts): a path item under
construction, the method key, and the operation object being filled in. -/
structure EndpointBuilder where
  raw : Obj
  method : String
  insideMethod : Obj

namespace EndpointBuilder

/-- The class constructor: seeds the operation object with summary,
description, empty parameters, empty request body and empty responses, and
hangs it under the method key. -/
def init (method title : String) : EndpointBuilder :=
  let insideMethod : Obj :=
    [ ("summary", Json.str title)
    , ("description", Json.str title)
    , ("parameters", Json.arr [])
    , ("requestBody", Json.obj [])
    , ("responses", Json.obj []) ]
  { raw := [(method, Json.obj insideMethod)]
    method := method
    insideMethod := insideMethod }

/-- Method getEndpoint: reassigns the operation under the method key and
returns the path item. -/
def getEndpoint (b : EndpointBuilder) : Obj :=
  objSet b.raw b.method (Json.obj b.insideMethod)

/-- A security requirement rendered as the JSON value stored in the
document tree. -/
def secReqToJson (r : SecurityRequirement) : Json :=
  Json.obj (r.map (fun p => (p.1, Json.arr (p.2.map Json.str))))

/-- Method setSecurity: wholesale assignment of the operation's security
array. -/
def setSecurity (b : EndpointBuilder) (reqs : List SecurityRequirement) :
    EndpointBuilder :=
  { b with insideMethod :=
      objSet b.insideMethod "security" (Json.arr (reqs.map secReqToJson)) }

/-- Method addSecurityRequirement: lazily creates the security array and
pushes one single-scheme requirement. -/
def addSecurityRequirement (b : EndpointBuilder) (name : String)
    (scopes : List String) : EndpointBuilder :=
  let sec :=
    match objGet b.insideMethod "security" with
    | some (Json.arr items) => items
    | _ => []
  { b with insideMethod :=
      objSet b.insideMethod "security" (Json.arr (sec ++ [secReqToJson [(name, scopes)]])) }

/-- Method addExtension: throws unless the extension name starts with the
reserved prefix, otherwise stores the value under the name.  The returned
pair is the state of the object after the call together with the thrown
message, if any; a throw happens before any mutation. -/
def addExtension (b : EndpointBuilder) (extensionName : String) (value : Json) :
    EndpointBuilder × Option String :=
  if "x-".data <+: extensionName.data then
    ({ b with insideMethod := objSet b.insideMethod extensionName value }, none)
  else
    (b, some "Extension name must start with x-")

end EndpointBuilder

/-- Hexadecimal digit used in unicode escapes. -/
def hexDigit (n : Nat) : Char :=
  if n < 10 then Char.ofNat (48 + n) else Char.ofNat (87 + n)

/-- Escaping of one character inside a JSON string literal, as performed by
JSON.stringify. -/
def escapeChar (c : Char) : List Char :=
  if c = '"' then ['\\', '"']
  else if c = '\\' then ['\\', '\\']
  else if c = '\x08' then ['\\', 'b']
  else if c = '\x0c' then ['\\', 'f']
  else if c = '\n' then ['\\', 'n']
  else if c = '\r' then ['\\', 'r']
  else if c = '\t' then ['\\', 't']
  else if c.toNat < 32 then
    ['\\', 'u', '0', '0', hexDigit (c.toNat / 16), hexDigit (c.toNat % 16)]
  else [c]

/-- A JSON string literal: quoted and escaped. -/
def renderString (s : String) : String :=
  String.mk ('"' :: (s.data.map escapeChar).flatten ++ ['"'])

/-- Indentation of two spaces per nesting level, the gap produced by
stringify with indent argument 2. -/
def indentN (d : Nat) : String :=
  String.mk (List.replicate (2 * d) ' ')

/-- Join with a separator, as Array.prototype.join. -/
def joinWith (sep : String) : List String → String
  | [] => ""
  | [x] => x
  | x :: y :: xs => x ++ sep ++ joinWith sep (y :: xs)

mutual

/-- Pretty rendering of a JSON value at nesting depth d, following
JSON.stringify(value, null, 2): empty containers render on one line, and
members of non-empty containers are indented two spaces per level. -/
def render : Json → Nat → String
  | .null, _ => "null"
  | .bool true, _ => "true"
  | .bool false, _ => "false"
  | .num n, _ => toString n
  | .str s, _ => renderString s
  | .arr [], _ => "[]"
  | .arr (x :: xs), d =>
      "[\n" ++ joinWith ",\n" (renderItems (x :: xs) (d + 1)) ++ "\n" ++ indentN d ++ "]"
  | .obj [], _ => "\x7b\x7d"
  | .obj (f :: fs), d =>
      "\x7b\n" ++ joinWith ",\n" (renderFields (f :: fs) (d + 1)) ++ "\n" ++ indentN d ++ "\x7d"

/-- Rendered array members, one string per member. -/
def renderItems : List Json → Nat → List String
  | [], _ => []
  | x :: xs, d => (indentN d ++ render x d) :: renderItems xs d

/-- Rendered object members, one string per key and value pair. -/
def renderFields : List (String × Json) → Nat → List String
  | [], _ => []
  | (k, v) :: fs, d =>
      (indentN d ++ renderString k ++ ": " ++ render v d) :: renderFields fs d

end

/-- The serialization entry point, JSON.stringify(value, null, 2) as used
by getJSONString. -/
def jsonStringify (j : Json) : String :=
  render j 0

/-- One string occurs inside another (character-level substring). -/
def strIn (a b : String) : Prop :=
  a.data <:+: b.data

theorem strData_append (a b : String) : (a ++ b).data = a.data ++ b.data := by
  cases a; cases b; rfl

theorem strIn_append_left {a b : String} (c : String) (h : strIn a b) :
    strIn a (c ++ b) := by
  obtain ⟨s, t, hst⟩ := h
  exact ⟨c.data ++ s, t, by rw [strData_append, ← hst]; simp⟩

theorem strIn_append_right {a b : String} (c : String) (h : strIn a b) :
    strIn a (b ++ c) := by
  obtain ⟨s, t, hst⟩ := h
  exact ⟨s, t ++ c.data, by rw [strData_append, ← hst]; simp⟩

theorem strIn_refl (a : String) : strIn a a :=
  ⟨[], [], by simp⟩

theorem strIn_trans {a b c : String} (h₁ : strIn a b) (h₂ : strIn b c) :
    strIn a c :=
  List.IsInfix.trans h₁ h₂

theorem strIn_of_suffix_part {a b c : String} (h : b = c ++ a) : strIn a b := by
  subst h
  exact ⟨c.data, [], by rw [strData_append]; simp⟩

theorem strIn_joinWith {x : String} {l : List String} (sep : String)
    (h : x ∈ l) : strIn x (joinWith sep l) := by
  induction l with
  | nil => cases h
  | cons y ys ih =>
      cases ys with
      | nil =>
          rcases List.mem_singleton.mp h with rfl
          exact strIn_refl x
      | cons z zs =>
          rcases List.mem_cons.mp h with rfl | hmem
          · show strIn x (x ++ sep ++ joinWith sep (z :: zs))
            exact strIn_append_right _ (strIn_append_right _ (strIn_refl x))
          · show strIn x (y ++ sep ++ joinWith sep (z :: zs))
            exact strIn_append_left _ (ih hmem)

theorem mem_renderFields {fields : List (String × Json)} {k : String}
    {v : Json} (h : (k, v) ∈ fields) (d : Nat) :
    (indentN d ++ renderString k ++ ": " ++ render v d) ∈ renderFields fields d := by
  induction fields with
  | nil => cases h
  | cons f fs ih =>
      obtain ⟨k', v'⟩ := f
      rcases List.mem_cons.mp h with heq | hmem
      · injection heq with h1 h2
        subst h1
        subst h2
        exact List.mem_cons_self _ _
      · exact List.mem_cons_of_mem _ (ih hmem)

theorem render_obj_field {fields : List (String × Json)} {k : String}
    {v : Json} (h : (k, v) ∈ fields) (d : Nat) :
    strIn (renderString k ++ ": " ++ render v (d + 1)) (render (Json.obj fields) d) := by
  cases fields with
  | nil => cases h
  | cons f fs =>
      have hmem := mem_renderFields h (d + 1)
      have hjoin := strIn_joinWith ",\n" hmem
      have hdrop :
          strIn (renderString k ++ ": " ++ render v (d + 1))
            (indentN (d + 1) ++ renderString k ++ ": " ++ render v (d + 1)) := by
        apply strIn_of_suffix_part
        show _ = indentN (d + 1) ++ (renderString k ++ ": " ++ render v (d + 1))
        simp [String.ext_iff, strData_append, List.append_assoc]
      have hwhole :
          strIn (joinWith ",\n" (renderFields (f :: fs) (d + 1)))
            (render (Json.obj (f :: fs)) d) := by
        show strIn _ ("\x7b\n" ++ joinWith ",\n" (renderFields (f :: fs) (d + 1)) ++ "\n" ++ indentN d ++ "\x7d")
        have h1 := strIn_refl (joinWith ",\n" (renderFields (f :: fs) (d + 1)))
        exact strIn_append_right _ (strIn_append_right _ (strIn_append_right _ (strIn_append_left _ h1)))
      exact strIn_trans (strIn_trans hdrop hjoin) hwhole

theorem render_obj_value {fields : List (String × Json)} {k : String}
    {v : Json} (h : (k, v) ∈ fields) (d : Nat) :
    strIn (render v (d + 1)) (render (Json.obj fields) d) := by
  have hfield := render_obj_field h d
  refine strIn_trans ?_ hfield
  apply strIn_of_suffix_part
  rfl

theorem strMk_data (s : String) : String.mk s.data = s := rfl

/-- C7: setGlobalSecurity replaces the security sequence wholesale with
exactly the given list, and addGlobalSecurity appends one requirement at
the end of the (possibly just-created) sequence; in particular an add right
after a set yields the set list with the new requirement appended. -/
theorem globalSecurity_set_replaces_add_appends (doc : OpenAPIDoc)
    (rs : List SecurityRequirement) (r : SecurityRequirement) :
    (OpenAPI.setGlobalSecurity doc rs).security = some rs
    ∧ (OpenAPI.addGlobalSecurity doc r).security = some (doc.security.getD [] ++ [r])
    ∧ (OpenAPI.addGlobalSecurity (OpenAPI.setGlobalSecurity doc rs) r).security =
        some (rs ++ [r]) :=
  ⟨rfl, rfl, rfl⟩

/-- C9: addExtension throws exactly when the extension name lacks the
reserved x- prefix; on a throw the operation object is unchanged, and on
success the name is stored with the given value. -/
theorem addExtension_reserved_name_check (b : EndpointBuilder) (name : String)
    (v : Json) :
    ((EndpointBuilder.addExtension b name v).2.isSome ↔ ¬ "x-".data <+: name.data)
    ∧ (¬ "x-".data <+: name.data →
        EndpointBuilder.addExtension b name v =
          (b, some "Extension name must start with x-"))
    ∧ ("x-".data <+: name.data →
        (EndpointBuilder.addExtension b name v).2 = none
        ∧ objGet (EndpointBuilder.addExtension b name v).1.insideMethod name = some v) := by
  by_cases h : "x-".data <+: name.data
  · simp [EndpointBuilder.addExtension, h]
  · simp [EndpointBuilder.addExtension, h]

/-- Witness for C9: the name x-team is accepted and stored, the name team
is rejected with the object unchanged. -/
theorem addExtension_reserved_name_check_witness :
    ("x-".data <+: "x-team".data ∧ ¬ "x-".data <+: "team".data)
    ∧ ((EndpointBuilder.addExtension (EndpointBuilder.init "get" "t") "x-team"
          (Json.str "a")).2 = none
        ∧ objGet (EndpointBuilder.addExtension (EndpointBuilder.init "get" "t")
            "x-team" (Json.str "a")).1.insideMethod "x-team" = some (Json.str "a"))
    ∧ EndpointBuilder.addExtension (EndpointBuilder.init "get" "t") "team"
        (Json.str "a") =
      (EndpointBuilder.init "get" "t", some "Extension name must start with x-") :=
  ⟨⟨by decide, by decide⟩,
   (addExtension_reserved_name_check (EndpointBuilder.init "get" "t") "x-team"
      (Json.str "a")).2.2 (by decide),
   (addExtension_reserved_name_check (EndpointBuilder.init "get" "t") "team"
      (Json.str "a")).2.1 (by decide)⟩

/-- C2 counterexample: stamping the empty fragment with no dialect argument
on a freshly constructed document does not return the fragment unchanged;
the dollar-schema key is added, set to the document default dialect. -/
theorem createSchema_no_dialect_cx :
    OpenAPI.createSchema (OpenAPI.init ⟨"t", "1.0.0", none, none⟩) [] none =
      [("$schema", Json.str "https://json-schema.org/draft/2020-12/schema")]
    ∧ OpenAPI.createSchema (OpenAPI.init ⟨"t", "1.0.0", none, none⟩) [] none ≠ [] := by
  have h1 : OpenAPI.createSchema (OpenAPI.init ⟨"t", "1.0.0", none, none⟩) [] none =
      [("$schema", Json.str "https://json-schema.org/draft/2020-12/schema")] := rfl
  exact ⟨h1, fun h => List.cons_ne_nil _ _ (h1.symm.trans h)⟩

/-- C2 (amended): stamping a fragment with no dialect argument returns a
shallow copy with the dollar-schema key set to the document default
dialect (createSchema does inherit the default), which for a freshly
constructed document is the 2020-12 dialect URI. -/
theorem createSchema_inherits_default_dialect (doc : OpenAPIDoc) (schema : Obj) :
    OpenAPI.createSchema doc schema none =
      objSet schema "$schema" (Json.str (OpenAPI.getJSONSchemaDialect doc))
    ∧ ∀ config : OpenAPIParams,
        OpenAPI.createSchema (OpenAPI.init config) schema none =
          objSet schema "$schema"
            (Json.str "https://json-schema.org/draft/2020-12/schema") := by
  refine ⟨rfl, fun config => ?_⟩
  show objSet schema "$schema"
      (Json.str (jsOrStr none (OpenAPI.getJSONSchemaDialect (OpenAPI.init config)))) = _
  have hd : OpenAPI.getJSONSchemaDialect (OpenAPI.init config) =
      "https://json-schema.org/draft/2020-12/schema" := by
    simp [OpenAPI.getJSONSchemaDialect, OpenAPI.init, jsOrStr, OpenAPI.DRAFT_2020_12]
  rw [show jsOrStr none (OpenAPI.getJSONSchemaDialect (OpenAPI.init config)) =
        OpenAPI.getJSONSchemaDialect (OpenAPI.init config) from rfl, hd]

/-- C8 counterexample: a schema registered through addSchema without a
dialect argument is not always stored without a dollar-schema key; a
fragment that itself carries the key keeps it in the stored value. -/
theorem addSchema_no_dialect_cx :
    OpenAPI.getComponentByRef
        (OpenAPI.addSchema (OpenAPI.init ⟨"t", "1.0.0", none, none⟩) "S"
          [("$schema", Json.str "https://json-schema.org/draft/07/schema")] none).1
        "#/components/schemas/S" =
      some (Json.obj [("$schema", Json.str "https://json-schema.org/draft/07/schema")]) := by
  rfl

/-- C8 (amended): a freshly constructed document reports the 2020-12
dialect as its default, and addSchema without a dialect argument stores
the fragment unchanged: no dollar-schema key is added (the stored schema
carries the key exactly when the fragment already did). -/
theorem default_dialect_and_addSchema_stores_unchanged (config : OpenAPIParams)
    (doc : OpenAPIDoc) (name : String) (schema : Obj) :
    OpenAPI.getJSONSchemaDialect (OpenAPI.init config) =
      "https://json-schema.org/draft/2020-12/schema"
    ∧ objGet (((OpenAPI.addSchema doc name schema none).1.components.getD {}).schemas.getD [])
        name = some (Json.obj schema) := by
  constructor
  · simp [OpenAPI.getJSONSchemaDialect, OpenAPI.init, jsOrStr, OpenAPI.DRAFT_2020_12]
  · simp [OpenAPI.addSchema, OpenAPI.addComponent, OpenAPIComponents.setColl,
      OpenAPIComponents.getColl]


theorem addTag_existing_noop {doc : OpenAPIDoc} {name : String} {t : OpenAPITag}
    (h : (doc.tags.getD []).find? (fun x => x.name == name) = some t)
    (d : Option String) (ed : Option OpenAPIExternalDocs) :
    OpenAPI.addTag doc name d ed = doc := by
  obtain ⟨o, i, j, p, s, c, sec, tg, wh⟩ := doc
  cases tg with
  | none => simp at h
  | some l =>
      have hl : List.find? (fun x => x.name == name) l = some t := h
      simp [OpenAPI.addTag, hl]

/-- C5: a tag registration under an already-present name is a no-op (first
registration wins, the stored description and external documentation are
unchanged); registering the same name twice starting from a state without
it leaves the document of the first registration unchanged, with exactly
one tag of that name carrying the first description and external
documentation. -/
theorem addTag_first_registration_wins (doc : OpenAPIDoc) (name : String)
    (d d₂ : Option String) (ed ed₂ : Option OpenAPIExternalDocs) :
    (((doc.tags.getD []).find? (fun t => t.name == name)).isSome →
        OpenAPI.addTag doc name d ed = doc)
    ∧ ((doc.tags.getD []).find? (fun t => t.name == name) = none →
        OpenAPI.addTag (OpenAPI.addTag doc name d ed) name d₂ ed₂ =
          OpenAPI.addTag doc name d ed
        ∧ OpenAPI.getTagByName (OpenAPI.addTag (OpenAPI.addTag doc name d ed) name d₂ ed₂)
            name = some ⟨name, if truthyS d then d else none, ed⟩
        ∧ (((OpenAPI.addTag (OpenAPI.addTag doc name d ed) name d₂ ed₂).tags.getD []).filter
              (fun t => t.name == name)).length = 1) := by
  constructor
  · intro h
    cases hh : (doc.tags.getD []).find? (fun t => t.name == name) with
    | none => rw [hh] at h; simp at h
    | some t => exact addTag_existing_noop hh d ed
  · intro hf
    have hdoc1 : OpenAPI.addTag doc name d ed =
        { doc with tags := some (doc.tags.getD [] ++
            [⟨name, if truthyS d then d else none, ed⟩]) } := by
      simp [OpenAPI.addTag, hf]
    have hfind1 : ((OpenAPI.addTag doc name d ed).tags.getD []).find?
        (fun t => t.name == name) =
          some ⟨name, if truthyS d then d else none, ed⟩ := by
      rw [hdoc1]
      simp only [Option.getD_some]
      rw [List.find?_append, hf]
      simp [List.find?]
    have hnoop : OpenAPI.addTag (OpenAPI.addTag doc name d ed) name d₂ ed₂ =
        OpenAPI.addTag doc name d ed :=
      addTag_existing_noop hfind1 d₂ ed₂
    refine ⟨hnoop, ?_, ?_⟩
    · rw [hnoop]
      unfold OpenAPI.getTagByName
      rw [hdoc1]
      simp only [Option.some_bind]
      rw [List.find?_append, hf]
      simp [List.find?]
    · rw [hnoop, hdoc1]
      simp only [Option.getD_some]
      rw [List.filter_append]
      have hnil : (doc.tags.getD []).filter (fun t => t.name == name) = [] := by
        rw [List.filter_eq_nil_iff]
        intro a ha
        have := List.find?_eq_none.mp hf a ha
        simpa using this
      rw [hnil]
      simp [List.filter]

/-- Witness for C5: on a fresh document, registering tag a twice keeps the
first description. -/
theorem addTag_first_registration_wins_witness :
    (((OpenAPI.init ⟨"t", "1.0.0", none, none⟩).tags.getD []).find?
        (fun t => t.name == "a") = none)
    ∧ OpenAPI.getTagByName
        (OpenAPI.addTag
          (OpenAPI.addTag (OpenAPI.init ⟨"t", "1.0.0", none, none⟩) "a"
            (some "first") none)
          "a" (some "second") none) "a" =
      some ⟨"a", some "first", none⟩ := by
  constructor
  · rfl
  · have h := ((addTag_first_registration_wins (OpenAPI.init ⟨"t", "1.0.0", none, none⟩)
      "a" (some "first") (some "second") none none).2 (by rfl)).2.1
    simpa using h

theorem kname_no_slash (k : CollectionKind) : '/' ∉ (CollectionKind.name k).data := by
  cases k <;> decide

theorem componentsLookup_addComponent (doc : OpenAPIDoc) (k : CollectionKind)
    (name : String) (fragment : Json) :
    OpenAPI.componentsLookup (OpenAPI.addComponent doc k name fragment).1 k.name =
      some (objSet (((doc.components.getD {}).getColl k).getD []) name fragment) := by
  simp [OpenAPI.addComponent, OpenAPI.componentsLookup, lookup_name_eq_getColl,
    getColl_setColl_self]

theorem getComponentByRef_canonical (doc : OpenAPIDoc) (k : CollectionKind)
    (name : String) (hname : '/' ∉ name.data) :
    OpenAPI.getComponentByRef doc ("#/components/" ++ k.name ++ "/" ++ name) =
      match OpenAPI.componentsLookup doc k.name with
      | none => none
      | some coll => objGet coll name := by
  have hdata : ("#/components/" ++ k.name ++ "/" ++ name).data =
      '#' :: '/' :: ("components".data ++ '/' :: (k.name.data ++ '/' :: name.data)) := by
    rw [strData_append, strData_append, strData_append]
    show "#/components/".data ++ k.name.data ++ "/".data ++ name.data = _
    rw [List.append_assoc, List.append_assoc]
    exact rfl
  have hpre : "#/components/".data <+: ("#/components/" ++ k.name ++ "/" ++ name).data := by
    refine ⟨k.name.data ++ '/' :: name.data, ?_⟩
    rw [hdata]
    exact rfl
  unfold OpenAPI.getComponentByRef
  rw [if_pos hpre, hdata]
  simp only [List.drop_succ_cons, List.drop_zero]
  rw [splitOnChar_append_sep (by decide), splitOnChar_append_sep (kname_no_slash k),
    splitOnChar_of_not_mem hname]

theorem addComponent_resolves {doc : OpenAPIDoc} {k : CollectionKind}
    {name : String} {fragment : Json} (hname : '/' ∉ name.data) :
    OpenAPI.getComponentByRef (OpenAPI.addComponent doc k name fragment).1
      (OpenAPI.addComponent doc k name fragment).2.ref = some fragment := by
  rw [show (OpenAPI.addComponent doc k name fragment).2.ref =
      "#/components/" ++ k.name ++ "/" ++ name from rfl]
  rw [getComponentByRef_canonical (OpenAPI.addComponent doc k name fragment).1 k name hname]
  rw [componentsLookup_addComponent]
  simp

/-- C1 (amended): for every collection, every name not containing a slash,
and every fragment, registering through the matching add* operation and
resolving the minted reference returns the registered fragment; in
particular addSchema with no dialect argument round-trips the stored
fragment unchanged. -/
theorem register_resolve_roundtrip (doc : OpenAPIDoc) (k : CollectionKind)
    (name : String) (fragment : Json) (schema : Obj) (hname : '/' ∉ name.data) :
    OpenAPI.getComponentByRef (OpenAPI.addComponent doc k name fragment).1
        (OpenAPI.addComponent doc k name fragment).2.ref = some fragment
    ∧ OpenAPI.getComponentByRef (OpenAPI.addSchema doc name schema none).1
        (OpenAPI.addSchema doc name schema none).2.ref = some (Json.obj schema) :=
  ⟨addComponent_resolves hname, addComponent_resolves hname⟩

/-- Witness for C1: registering the schema User round-trips on a fresh
document. -/
theorem register_resolve_roundtrip_witness :
    ('/' ∉ "User".data)
    ∧ OpenAPI.getComponentByRef
        (OpenAPI.addComponent (OpenAPI.init ⟨"t", "1.0.0", none, none⟩) .schemas
          "User" (Json.str "x")).1
        (OpenAPI.addComponent (OpenAPI.init ⟨"t", "1.0.0", none, none⟩) .schemas
          "User" (Json.str "x")).2.ref = some (Json.str "x") :=
  ⟨by decide,
   (register_resolve_roundtrip (OpenAPI.init ⟨"t", "1.0.0", none, none⟩) .schemas
      "User" (Json.str "x") [] (by decide)).1⟩

/-- C1 counterexample: for the registration name a/b (a name containing a
slash) the minted reference splits into four segments, so resolving it
returns none instead of the registered fragment. -/
theorem register_resolve_roundtrip_cx :
    OpenAPI.getComponentByRef
        (OpenAPI.addSchema (OpenAPI.init ⟨"t", "1.0.0", none, none⟩) "a/b" [] none).1
        (OpenAPI.addSchema (OpenAPI.init ⟨"t", "1.0.0", none, none⟩) "a/b" [] none).2.ref =
      none := by
  rfl

/-- C3: the resolver is a pure lookup on the document that returns none
(and cannot throw or mutate anything, being a total function of the
document) whenever the reference lacks the components prefix, does not
split into exactly three segments, names a collection that is absent, or
names an entry absent from that collection. -/
theorem resolver_miss_returns_none (doc : OpenAPIDoc) (ref : String) :
    (¬ "#/components/".data <+: ref.data → OpenAPI.getComponentByRef doc ref = none)
    ∧ ((splitOnChar '/' (ref.data.drop 2)).length ≠ 3 →
        OpenAPI.getComponentByRef doc ref = none)
    ∧ (∀ p₀ p₁ p₂, splitOnChar '/' (ref.data.drop 2) = [p₀, p₁, p₂] →
        OpenAPI.componentsLookup doc (String.mk p₁) = none →
        OpenAPI.getComponentByRef doc ref = none)
    ∧ (∀ p₀ p₁ p₂ coll, splitOnChar '/' (ref.data.drop 2) = [p₀, p₁, p₂] →
        OpenAPI.componentsLookup doc (String.mk p₁) = some coll →
        objGet coll (String.mk p₂) = none →
        OpenAPI.getComponentByRef doc ref = none) := by
  refine ⟨?_, ?_, ?_, ?_⟩
  · intro h
    simp [OpenAPI.getComponentByRef, h]
  · intro h
    unfold OpenAPI.getComponentByRef
    by_cases hp : "#/components/".data <+: ref.data
    · rw [if_pos hp]
      rcases hsp : splitOnChar '/' (ref.data.drop 2) with _ | ⟨a, _ | ⟨b, _ | ⟨c, _ | d⟩⟩⟩
      · rfl
      · rfl
      · rfl
      · exact absurd (by rw [hsp]; rfl) h
      · rfl
    · rw [if_neg hp]
  · intro p₀ p₁ p₂ hsp hlook
    unfold OpenAPI.getComponentByRef
    by_cases hp : "#/components/".data <+: ref.data
    · rw [if_pos hp, hsp]
      simp only [hlook]
    · rw [if_neg hp]
  · intro p₀ p₁ p₂ coll hsp hlook hget
    unfold OpenAPI.getComponentByRef
    by_cases hp : "#/components/".data <+: ref.data
    · rw [if_pos hp, hsp]
      simp only [hlook, hget]
    · rw [if_neg hp]

/-- Witness for C3: on a fresh document the reference to an unregistered
schema and a malformed reference both resolve to none. -/
theorem resolver_miss_returns_none_witness :
    (¬ "#/components/".data <+: "not-a-ref".data
      ∧ splitOnChar '/' ("#/components/schemas/DoesNotExist".data.drop 2) =
          ["components".data, "schemas".data, "DoesNotExist".data]
      ∧ OpenAPI.componentsLookup (OpenAPI.init ⟨"t", "1.0.0", none, none⟩)
          (String.mk "schemas".data) = none)
    ∧ OpenAPI.getComponentByRef (OpenAPI.init ⟨"t", "1.0.0", none, none⟩)
        "not-a-ref" = none
    ∧ OpenAPI.getComponentByRef (OpenAPI.init ⟨"t", "1.0.0", none, none⟩)
        "#/components/schemas/DoesNotExist" = none :=
  ⟨⟨by decide, by decide, rfl⟩,
   (resolver_miss_returns_none (OpenAPI.init ⟨"t", "1.0.0", none, none⟩)
      "not-a-ref").1 (by decide),
   (resolver_miss_returns_none (OpenAPI.init ⟨"t", "1.0.0", none, none⟩)
      "#/components/schemas/DoesNotExist").2.2.1 "components".data "schemas".data
      "DoesNotExist".data (by decide) rfl⟩

/-- C4 (amended): merging a second path item under an already-used template
replaces the stored item wholesale with the second one, so no operation of
the first survives (even under method keys absent from the second), and the
second merge emits a warn-level console line naming the path whenever the
instance has debug logging enabled; it never fails. -/
theorem mergePath_wholesale_overwrite (c : Core) (t : String) (p₁ p₂ : Obj) :
    objGet ((Core.addEndpointPath (Core.addEndpointPath c ⟨t, p₁⟩).1 ⟨t, p₂⟩).1.raw.paths.getD [])
        t = some p₂
    ∧ (∀ m : String, objGet p₂ m = none →
        ((objGet ((Core.addEndpointPath (Core.addEndpointPath c ⟨t, p₁⟩).1 ⟨t, p₂⟩).1.raw.paths.getD [])
            t).bind (fun pi => objGet pi m)) = none)
    ∧ (c.debug = true →
        ("warn", "Path " ++ t ++ " already exists, overwriting it") ∈
          (Core.addEndpointPath (Core.addEndpointPath c ⟨t, p₁⟩).1 ⟨t, p₂⟩).2) := by
  have hstore : objGet ((Core.addEndpointPath (Core.addEndpointPath c ⟨t, p₁⟩).1 ⟨t, p₂⟩).1.raw.paths.getD [])
      t = some p₂ := by
    simp [Core.addEndpointPath]
  refine ⟨hstore, fun m hm => ?_, fun hdbg => ?_⟩
  · rw [hstore]
    simpa using hm
  · simp [Core.addEndpointPath, Core.logOut, hdbg]

/-- Witness for C4: with debug enabled, merging the template /x twice
discards the get operation and logs the warning. -/
theorem mergePath_wholesale_overwrite_witness :
    ((Core.init true).debug = true ∧ objGet [("post", Json.obj [])] "get" = none)
    ∧ ((objGet ((Core.addEndpointPath
          (Core.addEndpointPath (Core.init true) ⟨"/x", [("get", Json.obj [])]⟩).1
          ⟨"/x", [("post", Json.obj [])]⟩).1.raw.paths.getD [])
          "/x").bind (fun pi => objGet pi "get")) = none
    ∧ ("warn", "Path " ++ "/x" ++ " already exists, overwriting it") ∈
        (Core.addEndpointPath
          (Core.addEndpointPath (Core.init true) ⟨"/x", [("get", Json.obj [])]⟩).1
          ⟨"/x", [("post", Json.obj [])]⟩).2 :=
  ⟨⟨rfl, rfl⟩,
   (mergePath_wholesale_overwrite (Core.init true) "/x" [("get", Json.obj [])]
      [("post", Json.obj [])]).2.1 "get" rfl,
   (mergePath_wholesale_overwrite (Core.init true) "/x" [("get", Json.obj [])]
      [("post", Json.obj [])]).2.2 rfl⟩

/-- C4 counterexample: with the constructor default of debug disabled, the
second merge of the same template produces no console output at all, so no
warning is emitted. -/
theorem mergePath_warning_cx :
    (Core.addEndpointPath
        (Core.addEndpointPath (Core.init false) ⟨"/x", [("get", Json.obj [])]⟩).1
        ⟨"/x", [("post", Json.obj [])]⟩).2 = [] := by
  rfl

/-- C10 (amended): addWebhookOperation fails with false when the named
webhook is missing or is a Reference, leaving the stored webhook entries
unchanged, except that a missing webhooks mapping is first initialized to
the present-but-empty mapping; when the webhook is a plain path item the
operation is stored under the method key and the call returns true. -/
theorem addWebhookOperation_guards (doc : OpenAPIDoc) (n m : String) (op : Json) :
    (objGet (doc.webhooks.getD []) n = none →
        OpenAPI.addWebhookOperation doc n m op =
          ({ doc with webhooks := some (doc.webhooks.getD []) }, false))
    ∧ (∀ wh, objGet (doc.webhooks.getD []) n = some wh →
        (objGet wh "$ref").isSome →
        OpenAPI.addWebhookOperation doc n m op = (doc, false))
    ∧ (∀ wh, objGet (doc.webhooks.getD []) n = some wh →
        objGet wh "$ref" = none →
        OpenAPI.addWebhookOperation doc n m op =
          ({ doc with
              webhooks := some (objSet (doc.webhooks.getD []) n (objSet wh m op)) },
            true)) := by
  obtain ⟨o, i, j, p, s, c, sec, tg, wh⟩ := doc
  cases wh with
  | none =>
      refine ⟨fun h => rfl, fun w hw _ => ?_, fun w hw _ => ?_⟩
      · simp [objGet] at hw
      · simp [objGet] at hw
  | some l =>
      refine ⟨fun h => ?_, fun w hw hr => ?_, fun w hw hr => ?_⟩
      · simp only [Option.getD_some] at h
        simp [OpenAPI.addWebhookOperation, h]
      · simp only [Option.getD_some] at hw
        simp [OpenAPI.addWebhookOperation, hw, hr]
      · simp only [Option.getD_some] at hw
        simp [OpenAPI.addWebhookOperation, hw, hr]

/-- Witness for C10: adding an operation succeeds on a stored path-item
webhook, fails on a Reference webhook, and fails on a missing name. -/
theorem addWebhookOperation_guards_witness :
    (objGet ((OpenAPI.addWebhook (OpenAPI.init ⟨"t", "1.0.0", none, none⟩) "w"
          [("post", Json.obj [])]).webhooks.getD []) "w" = some [("post", Json.obj [])]
      ∧ objGet [("post", Json.obj [])] "$ref" = none
      ∧ objGet ((OpenAPI.init ⟨"t", "1.0.0", none, none⟩).webhooks.getD []) "w" = none)
    ∧ OpenAPI.addWebhookOperation
        (OpenAPI.addWebhook (OpenAPI.init ⟨"t", "1.0.0", none, none⟩) "w"
          [("post", Json.obj [])]) "w" "put" (Json.str "op") =
      ({ OpenAPI.addWebhook (OpenAPI.init ⟨"t", "1.0.0", none, none⟩) "w"
            [("post", Json.obj [])] with
          webhooks := some [("w", [("post", Json.obj []), ("put", Json.str "op")])] },
        true)
    ∧ OpenAPI.addWebhookOperation (OpenAPI.init ⟨"t", "1.0.0", none, none⟩) "w" "get"
        (Json.str "op") =
      ({ OpenAPI.init ⟨"t", "1.0.0", none, none⟩ with webhooks := some [] }, false) := by
  refine ⟨⟨rfl, rfl, rfl⟩, ?_, ?_⟩
  · have h := (addWebhookOperation_guards
      (OpenAPI.addWebhook (OpenAPI.init ⟨"t", "1.0.0", none, none⟩) "w"
        [("post", Json.obj [])]) "w" "put" (Json.str "op")).2.2
      [("post", Json.obj [])] rfl rfl
    exact h
  · have h := (addWebhookOperation_guards (OpenAPI.init ⟨"t", "1.0.0", none, none⟩)
      "w" "get" (Json.str "op")).1 rfl
    exact h

/-- C10 counterexample: on a document whose webhooks mapping is absent, the
failing call still changes the document, materializing the mapping as
present but empty. -/
theorem addWebhookOperation_guards_cx :
    (OpenAPI.addWebhookOperation (OpenAPI.init ⟨"t", "1.0.0", none, none⟩) "w" "get"
        (Json.obj [])).2 = false
    ∧ (OpenAPI.addWebhookOperation (OpenAPI.init ⟨"t", "1.0.0", none, none⟩) "w" "get"
        (Json.obj [])).1.webhooks = some []
    ∧ (OpenAPI.init ⟨"t", "1.0.0", none, none⟩).webhooks = none :=
  ⟨rfl, rfl, rfl⟩

/-- C6: an operation whose security array was set to the empty sequence
carries an explicit security member holding the empty array, and its
serialized path item contains the empty security array verbatim; an
operation that never had a security field serializes with no security
member at all (the freshly constructed operation has none), and the
serialized operation object is exactly the in-memory one. -/
theorem operation_security_empty_vs_absent (b : EndpointBuilder)
    (reqs : List SecurityRequirement) (m title : String) :
    objGet (EndpointBuilder.setSecurity b reqs).insideMethod "security" =
        some (Json.arr (reqs.map EndpointBuilder.secReqToJson))
    ∧ strIn "\"security\": []"
        (jsonStringify (Json.obj (EndpointBuilder.getEndpoint (EndpointBuilder.setSecurity b []))))
    ∧ objGet (EndpointBuilder.getEndpoint b) b.method = some (Json.obj b.insideMethod)
    ∧ (objGet b.insideMethod "security" = none →
        "security" ∉ b.insideMethod.map Prod.fst)
    ∧ objGet (EndpointBuilder.init m title).insideMethod "security" = none := by
  refine ⟨objGet_objSet_self _ _ _, ?_, objGet_objSet_self _ _ _,
    fun h => (objGet_eq_none_iff _ _).mp h, rfl⟩
  have hmem1 : ("security", Json.arr []) ∈
      (EndpointBuilder.setSecurity b []).insideMethod :=
    mem_objSet_self b.insideMethod "security" (Json.arr [])
  have hmem2 : ((EndpointBuilder.setSecurity b []).method,
      Json.obj (EndpointBuilder.setSecurity b []).insideMethod) ∈
        EndpointBuilder.getEndpoint (EndpointBuilder.setSecurity b []) :=
    mem_objSet_self _ _ _
  have h1 := render_obj_field hmem1 1
  have h2 := render_obj_value hmem2 0
  have heq : renderString "security" ++ ": " ++ render (Json.arr []) 2 =
      "\"security\": []" := by
    rfl
  rw [heq] at h1
  exact strIn_trans h1 h2

/-- Witness for C6: the freshly constructed get operation has no security
member, hence no security key among its serialized fields. -/
theorem operation_security_empty_vs_absent_witness :
    objGet (EndpointBuilder.init "get" "t").insideMethod "security" = none
    ∧ "security" ∉ (EndpointBuilder.init "get" "t").insideMethod.map Prod.fst :=
  ⟨rfl,
   (operation_security_empty_vs_absent (EndpointBuilder.init "get" "t") [] "get"
      "t").2.2.2.1 rfl⟩
